import Mathlib

/-!
Shallow embedding of the ScoopSentinel alert core (src/base.py and
src/cleanup.py) and proofs about it.

Modelling conventions:
* Instants are naturals counting minutes since a fixed local (Central-time)
  midnight epoch.  `datetime.now(CENTRAL)` becomes an explicit `now : Nat`
  argument; `.hour` and `.date()` become `localHour` and `localDate`.
  `timedelta` arithmetic becomes integer arithmetic on minutes (casting to
  `Int` where Python computes a possibly negative difference).
* A CSV data row is a `Row`.  `datetime.fromisoformat` on a row's timestamp
  field is modelled by storing the parse result directly: `timestamp = some t`
  for a well-formed ISO timestamp denoting instant `t`, `none` for a
  malformed field (where Python raises ValueError on access).
* The log file as read by `csv.DictReader` is `Option (List Row)`:
  `none` when `os.path.exists(LOG_FILE)` is false.
* Python exceptions are modelled with `Except PyErr`.
* `float` levels are modelled as rationals.
-/

/-- Python exceptions that the modelled code paths can raise. -/
inductive PyErr where
  | valueError    -- datetime.fromisoformat on a malformed string
  | unboundLocal  -- reading a local variable that was never assigned
  | osError       -- os.replace failing
deriving DecidableEq, Repr

/-- Local wall-clock hour of an instant (minutes since local midnight epoch). -/
def localHour (t : Nat) : Nat := t % 1440 / 60

/-- Local calendar date of an instant, as a day number. -/
def localDate (t : Nat) : Nat := t / 1440

/-- One CSV data row as produced by `csv.DictReader`: the `timestamp` field is
stored together with its `fromisoformat` parse result (`none` = malformed),
the `type`, `level` and `sent` fields are the raw strings. -/
structure Row where
  timestamp : Option Nat
  type      : String
  level     : String
  sent      : String
deriving DecidableEq, Repr

/-- `BOXcutoff1 = 90` (src/base.py line 48): urgent waste-tray threshold. -/
def BOXcutoff1 : ℚ := 90

/-- `BOXcutoff2 = 70` (src/base.py line 49): advisory waste-tray threshold. -/
def BOXcutoff2 : ℚ := 70

/-- `litterLevel1 = 0.2` (src/base.py line 58): urgent litter threshold. -/
def litterLevel1 : ℚ := 2 / 10

/-- `litterLevel2 = 0.6` (src/base.py line 59): advisory litter threshold. -/
def litterLevel2 : ℚ := 6 / 10

/-- Severity tiers implicit in `should_send`'s window selection. -/
inductive Severity where
  | urgent
  | advisory
deriving DecidableEq, Repr

/-- The severity classification implicit in `should_send` lines 123-136:
the branch chain that selects a throttle window (or returns False). -/
def classify (msg_type : String) (level : ℚ) : Option Severity :=
  if msg_type = "container" then
    if level ≥ BOXcutoff1 then some .urgent
    else if level ≥ BOXcutoff2 then some .advisory
    else none
  else if msg_type = "litter" then
    if level ≤ litterLevel1 then some .urgent
    else if level ≤ litterLevel2 then some .advisory
    else none
  else none

/-- Throttle window in minutes: `timedelta(hours=1)` for urgent,
`timedelta(hours=4)` for advisory. -/
def windowFor : Severity → Nat
  | .urgent => 60
  | .advisory => 240

/-- The rows matching the gate-2b filter of `should_send`:
`r["sent"] == "True" and r.get("type") == msg_type`. -/
def sentRows (msg_type : String) : Option (List Row) → List Row
  | none => []
  | some rows => rows.filter fun r => r.sent = "True" ∧ r.type = msg_type

/-- Gate 2a of `should_send` (src/base.py lines 122-136): the window
selection chain.  `none` models `return False` (below both thresholds);
`some none` models falling through with the local variable `window` never
assigned (a `msg_type` outside container/litter); `some (some w)` models
`window = timedelta(...)` of `w` minutes. -/
def windowChain (msg_type : String) (level : ℚ) : Option (Option Nat) :=
  if msg_type = "container" then
    if level ≥ BOXcutoff1 then some (some 60)
    else if level ≥ BOXcutoff2 then some (some 240)
    else none
  else if msg_type = "litter" then
    if level ≤ litterLevel1 then some (some 60)
    else if level ≤ litterLevel2 then some (some 240)
    else none
  else some none

/-- `should_send(level, msg_type)` (src/base.py lines 96-152), with the
implicit `datetime.now(CENTRAL)` and the log file made explicit.

Control flow mirrors the source exactly:
1. quiet hours: `if not (8 <= now.hour < 23): return False`;
2. window selection (`windowChain`), returning False below both thresholds;
3. log scan: filter rows with `sent == "True"` and matching `type`, take the
   last one (`rows[-1]`), parse its timestamp (ValueError if malformed), then
   evaluate `now - last_sent < window` (UnboundLocalError if `window` was
   never assigned). -/
def should_send (now : Nat) (level : ℚ) (msg_type : String)
    (log : Option (List Row)) : Except PyErr Bool :=
  if ¬ (8 ≤ localHour now ∧ localHour now < 23) then .ok false
  else
    match windowChain msg_type level with
    | none => .ok false
    | some window? =>
      match (sentRows msg_type log).getLast? with
      | none => .ok true
      | some lastRow =>
        match lastRow.timestamp with
        | none => .error .valueError
        | some last_sent =>
          match window? with
          | none => .error .unboundLocal
          | some window =>
            if (now : ℤ) - last_sent < window then .ok false else .ok true

/-- `should_send_morning()` (src/base.py lines 155-175), with `TEST_MODE`,
`now` and the log made explicit. -/
def should_send_morning (testMode : Bool) (now : Nat)
    (log : Option (List Row)) : Except PyErr Bool :=
  if testMode then .ok true
  else if ¬ (8 ≤ localHour now ∧ localHour now < 9) then .ok false
  else
    match (sentRows "morning" log).getLast? with
    | none => .ok true
    | some lastRow =>
      match lastRow.timestamp with
      | none => .error .valueError
      | some last_sent =>
        if localDate last_sent = localDate now then .ok false else .ok true

/-- `LOG_FIELDNAMES = ["timestamp", "type", "level", "sent"]`
(src/base.py line 224). -/
def LOG_FIELDNAMES : List String := ["timestamp", "type", "level", "sent"]

/-- The canonical header line, `",".join(LOG_FIELDNAMES)`. -/
def headerLine : String := String.intercalate "," LOG_FIELDNAMES

/-- The canonical header line as a character list (for the byte-level model of
`_ensure_log_header`). -/
def headerChars : List Char := headerLine.toList

/-- Python's `str.strip()` whitespace test (ASCII whitespace). -/
def isPyWs (c : Char) : Bool :=
  c = ' ' ∨ c = '\t' ∨ c = '\n' ∨ c = '\r' ∨ c = '\x0b' ∨ c = '\x0c'

/-- Python's `str.strip()`: drop leading and trailing whitespace. -/
def pyStrip (cs : List Char) : List Char :=
  ((cs.dropWhile isPyWs).reverse.dropWhile isPyWs).reverse

/-- `f.readline().strip()` on a file's content: the text before the first
newline, stripped.  (`readline` keeps the trailing newline; `strip` removes
it, so taking the text before the newline first is equivalent.) -/
def firstLineStripped (cs : List Char) : List Char :=
  pyStrip (cs.takeWhile (· ≠ '\n'))

/-- `_ensure_log_header()` (src/base.py lines 227-246) as a function on the
log file's byte content (`none` = file does not exist). If the stripped first
line differs from the canonical header, the header line and a newline are
prepended to the existing content; otherwise the file is untouched. -/
def ensure_log_header : Option (List Char) → Option (List Char)
  | none => none
  | some cs =>
    if firstLineStripped cs = headerChars then some cs
    else some (headerChars ++ '\n' :: cs)

/-- `str(b)` for a Python bool: the token `csv.DictWriter` writes for the
`sent` field of `log_reading`. -/
def formatSent (b : Bool) : String := if b then "True" else "False"

/-- `f"{level:.1f}"` for a non-negative level already rounded to tenths:
the level field `log_reading` writes, given `tenths` = level in tenths. -/
def formatLevel (tenths : Nat) : String :=
  toString (tenths / 10) ++ "." ++ toString (tenths % 10)

/-- Two-digit zero-padded decimal, as `isoformat` prints months, days,
hours, minutes and seconds. -/
def pad2 (n : Nat) : String :=
  if n < 10 then "0" ++ toString n else toString n

/-- Four-digit zero-padded decimal, as `isoformat` prints the year. -/
def pad4 (n : Nat) : String :=
  if n < 10 then "000" ++ toString n
  else if n < 100 then "00" ++ toString n
  else if n < 1000 then "0" ++ toString n
  else toString n

/-- Gregorian leap-year rule. -/
def isLeap (y : Nat) : Bool :=
  (y % 4 == 0 && y % 100 != 0) || y % 400 == 0

/-- Number of days in year `y`. -/
def daysInYear (y : Nat) : Nat := if isLeap y then 366 else 365

/-- The month lengths of year `y`, January to December. -/
def monthLengths (y : Nat) : List Nat :=
  [31, if isLeap y then 29 else 28, 31, 30, 31, 30, 31, 31, 30, 31, 30, 31]

/-- Locate a zero-based day-of-year in a list of month lengths: returns the
(one-based, given `m` starts at 1) month and one-based day of month. -/
def monthDayAux : Nat → List Nat → Nat → Nat × Nat
  | m, [], d => (m, d + 1)
  | m, len :: rest, d => if d < len then (m, d + 1) else monthDayAux (m + 1) rest (d - len)

/-- Locate a zero-based day count in the calendar starting at year `y`:
returns the year and the zero-based day-of-year.  The fuel argument makes
the recursion structural; any fuel at least the day count suffices, since
each step consumes a whole year. -/
def yearDayAux : Nat → Nat → Nat → Nat × Nat
  | 0, y, d => (y, d)
  | fuel + 1, y, d =>
    if d < daysInYear y then (y, d) else yearDayAux fuel (y + 1) (d - daysInYear y)

/-- Gregorian calendar date (year, month, day) of an instant, for the
minute-count model whose day 0 is 1970-01-01. -/
def civilFromMinutes (t : Nat) : Nat × Nat × Nat :=
  ((yearDayAux (t / 1440) 1970 (t / 1440)).1,
   monthDayAux 1 (monthLengths (yearDayAux (t / 1440) 1970 (t / 1440)).1)
     (yearDayAux (t / 1440) 1970 (t / 1440)).2)

/-- `now.isoformat()` for the timezone-aware `datetime.now(CENTRAL)`
(src/base.py line 269), at the whole-minute resolution of the instant
model: `YYYY-MM-DDTHH:MM:SS` followed by the zone's UTC offset.  The
offset is modelled as the fixed Central standard offset `-06:00`
(daylight-saving offset changes are not modelled, per the conventions
above). -/
def isoTimestamp (t : Nat) : String :=
  pad4 (civilFromMinutes t).1 ++ "-" ++ pad2 (civilFromMinutes t).2.1 ++ "-" ++
    pad2 (civilFromMinutes t).2.2 ++ "T" ++ pad2 (t % 1440 / 60) ++ ":" ++
    pad2 (t % 60) ++ ":00-06:00"

/-- The `msg_type` values `main()` passes to `log_reading`
(src/base.py lines 339, 343, 350, 354 and 369): every row the program
writes carries one of these three in its `type` field. -/
def mainMsgTypes : List String := ["container", "litter", "morning"]

/-- The four CSV fields `log_reading(level, sent, msg_type)` writes
(src/base.py lines 269-280), in writer field order: the `now.isoformat()`
string, the `msg_type` string, the level formatted with one decimal place,
and `str(sent)`. -/
def logRowFields (now : Nat) (msg_type : String) (tenths : Nat)
    (sent : Bool) : List String :=
  [isoTimestamp now, msg_type, formatLevel tenths, formatSent sent]

/-- A log file as seen by `cleanup_log`: the header row (the field names
`csv.DictReader` reads from the first line) and the data rows. -/
structure LogFile where
  header : List String
  rows   : List Row
deriving DecidableEq, Repr

/-- The row loop of `cleanup_log` (src/cleanup.py lines 81-87): parse each
row's timestamp (ValueError aborts the rewrite), keep the row when
`ts >= cutoff` where `cutoff = now - timedelta(hours=48)`. -/
def keptRows (now : Nat) : List Row → Except PyErr (List Row)
  | [] => .ok []
  | r :: rs =>
    match r.timestamp with
    | none => .error .valueError
    | some ts =>
      if (ts : ℤ) ≥ (now : ℤ) - 2880 then
        (keptRows now rs).map (r :: ·)
      else
        keptRows now rs

/-- Result of one `cleanup_log()` run: the log file content afterwards,
whether a temporary file was left behind, and the raised exception if any. -/
structure CleanupOutcome where
  log     : Option LogFile
  tmpLeft : Bool
  result  : Except PyErr Unit
deriving Repr

/-- `cleanup_log()` (src/cleanup.py lines 54-96), with `now`, the log file
and the success of `os.replace` made explicit.  Control flow mirrors the
source: no-op if the log does not exist; otherwise the kept rows and the
original header are written to a fresh temporary file, and `os.replace`
atomically installs it.  The `finally` block unlinks the temporary file
whenever an exception escapes before `tmp_path` was reset to None, so on
every failure path the original log is unchanged, no temporary file remains,
and the exception propagates. -/
def cleanup_log (now : Nat) (log : Option LogFile) (replaceOk : Bool) :
    CleanupOutcome :=
  match log with
  | none => ⟨none, false, .ok ()⟩
  | some f =>
    match keptRows now f.rows with
    | .error e => ⟨some f, false, .error e⟩
    | .ok kept =>
      if replaceOk then ⟨some ⟨f.header, kept⟩, false, .ok ()⟩
      else ⟨some f, false, .error .osError⟩

/-! ## Helper lemmas -/

lemma windowChain_container (level : ℚ) :
    windowChain "container" level =
      (classify "container" level).map (fun s => some (windowFor s)) := by
  simp only [windowChain, classify]
  split_ifs <;> rfl

lemma windowChain_litter (level : ℚ) :
    windowChain "litter" level =
      (classify "litter" level).map (fun s => some (windowFor s)) := by
  simp only [windowChain, classify]
  split_ifs <;> rfl

lemma windowChain_known (msg_type : String) (level : ℚ)
    (h : msg_type = "container" ∨ msg_type = "litter") :
    windowChain msg_type level =
      (classify msg_type level).map (fun s => some (windowFor s)) := by
  rcases h with h | h <;> subst h
  · exact windowChain_container level
  · exact windowChain_litter level

lemma windowChain_other (msg_type : String) (level : ℚ)
    (h1 : msg_type ≠ "container") (h2 : msg_type ≠ "litter") :
    windowChain msg_type level = some none := by
  simp [windowChain, h1, h2]

/-! ## C9: severity classification boundaries -/

/-- C9: severity classification assigns boundary values to the stricter
tier: for kind container, Urgent exactly when level ≥ 90 and Advisory
exactly when 70 ≤ level < 90, else None; for kind litter, Urgent exactly
when level ≤ 0.2 and Advisory exactly when 0.2 < level ≤ 0.6, else None. -/
theorem C9_classification_boundaries (level : ℚ) :
    (classify "container" level = some .urgent ↔ 90 ≤ level) ∧
    (classify "container" level = some .advisory ↔ 70 ≤ level ∧ level < 90) ∧
    (classify "container" level = none ↔ level < 70) ∧
    (classify "litter" level = some .urgent ↔ level ≤ 2/10) ∧
    (classify "litter" level = some .advisory ↔ 2/10 < level ∧ level ≤ 6/10) ∧
    (classify "litter" level = none ↔ 6/10 < level) := by
  have hc : classify "container" level =
      (if level ≥ BOXcutoff1 then some .urgent
       else if level ≥ BOXcutoff2 then some .advisory else none) := by
    simp [classify]
  have hl : classify "litter" level =
      (if level ≤ litterLevel1 then some .urgent
       else if level ≤ litterLevel2 then some .advisory else none) := by
    simp [classify]
  rw [BOXcutoff1] at hc; rw [BOXcutoff2] at hc
  rw [litterLevel1] at hl; rw [litterLevel2] at hl
  refine ⟨?_, ?_, ?_, ?_, ?_, ?_⟩ <;> simp only [hc, hl] <;> clear hc hl
  all_goals split_ifs with h1 h2 <;> simp_all <;> linarith

/-! ## C2: TEST_MODE and the quiet-hours gate of should_send -/

/-- C2: the quiet-hours gate of the alert path is NOT bypassed by any flag:
`should_send` in src/base.py never reads `TEST_MODE` (its model above has no
such parameter), and at a local time of 02:00 it returns False for an urgent
container level with an empty log — so the decision IS false merely because
the local hour lies outside [8, 23), contrary to the claim and to the module
comment at src/base.py lines 33-36. -/
theorem C2_quiet_hours_not_bypassed :
    localHour 120 = 2 ∧
    classify "container" 95 = some .urgent ∧
    should_send 120 95 "container" none = .ok false := by
  refine ⟨rfl, by decide, ?_⟩
  rfl

/-! ## C1: throttle decision of should_send -/

/-- C1 counterexample: at a local time of 03:00 (outside the quiet-hours
window), with an urgent container level and no log file, `should_send`
returns False even though `classify` is not None and no sent=True entry
exists — the claim as stated (which ignores the quiet-hours gate inside
`should_send`) demands True here. -/
theorem C1_counterexample :
    classify "container" 95 = some .urgent ∧
    sentRows "container" none = [] ∧
    should_send 180 95 "container" none = .ok false := by
  refine ⟨by decide, rfl, ?_⟩
  rfl

/-- C1 (amended): restricted to times within the quiet-hours window
[8, 23), the throttle decision is as claimed: if `classify` is None then
`should_send` is False (that part holds at every time); otherwise — given
that the most recent sent=True row of the kind, if any, has a well-formed
timestamp — `should_send` is True iff no sent=True entry of that kind
exists, or now minus the most recent such entry's timestamp is at least
the severity's window (60 minutes for Urgent, 240 for Advisory). -/
theorem C1_throttle_iff (now : Nat) (level : ℚ) (msg_type : String)
    (log : Option (List Row))
    (hmt : msg_type = "container" ∨ msg_type = "litter")
    (hp : ((sentRows msg_type log).getLast?).all (fun r => r.timestamp.isSome) = true) :
    (classify msg_type level = none → should_send now level msg_type log = .ok false) ∧
    (8 ≤ localHour now → localHour now < 23 →
      ∀ sev, classify msg_type level = some sev →
        (should_send now level msg_type log = .ok true ↔
          sentRows msg_type log = [] ∨
          ∃ r ts, (sentRows msg_type log).getLast? = some r ∧ r.timestamp = some ts ∧
            (windowFor sev : ℤ) ≤ (now : ℤ) - ts)) := by
  constructor
  · intro hcl
    unfold should_send
    by_cases hq : 8 ≤ localHour now ∧ localHour now < 23
    · rw [if_neg (not_not_intro hq), windowChain_known _ _ hmt, hcl]
      simp
    · rw [if_pos hq]
  · intro h8 h23 sev hcl
    unfold should_send
    rw [if_neg (not_not_intro ⟨h8, h23⟩), windowChain_known _ _ hmt, hcl]
    rcases hL : (sentRows msg_type log).getLast? with _ | r
    · simp only [Option.map_some']
      exact ⟨fun _ => Or.inl (List.getLast?_eq_none_iff.mp hL), fun _ => by trivial⟩
    · rw [hL] at hp
      simp only [Option.all_some] at hp
      obtain ⟨ts, hts⟩ := Option.isSome_iff_exists.mp hp
      simp only [Option.map_some', hts]
      split_ifs with hw
      · simp only [Except.ok.injEq, Bool.false_eq_true, false_iff]
        rintro (hnil | ⟨r', ts', hL', hts', hge⟩)
        · rw [hnil] at hL
          simp at hL
        · obtain rfl : r = r' := by injection hL'
          rw [hts] at hts'
          obtain rfl : ts = ts' := by injection hts'
          exact absurd hw (not_lt.mpr hge)
      · exact ⟨fun _ => Or.inr ⟨r, ts, rfl, hts, not_lt.mp hw⟩, fun _ => by trivial⟩

/-- C1 witness: at 08:20 local, urgent container level 95, with one
sent=True container row 70 minutes old (≥ the 60-minute urgent window),
`should_send` is True, as the amended claim computes. -/
theorem C1_throttle_iff_witness :
    should_send 500 95 "container" (some [⟨some 430, "container", "95.0", "True"⟩]) =
      .ok true :=
  ((C1_throttle_iff 500 95 "container"
      (some [⟨some 430, "container", "95.0", "True"⟩])
      (Or.inl rfl) (by decide)).2 (by decide) (by decide) .urgent (by decide)).mpr
    (Or.inr ⟨⟨some 430, "container", "95.0", "True"⟩, 430, by decide, rfl, by decide⟩)

/-! ## C3: malformed rows during the last-sent scan -/

/-- C3 counterexample: a log whose only row has a malformed timestamp makes
`should_send` raise ValueError (from `datetime.fromisoformat` on
`rows[-1]["timestamp"]`) instead of skipping the row: the scan aborts. -/
theorem C3_counterexample :
    should_send 500 95 "container" (some [⟨none, "container", "95.0", "True"⟩]) =
      .error .valueError := by
  rfl

/-- C3 (amended): the scan never validates rows other than the most recent
matching one; as long as the most recent sent=True row of the queried kind
(if any) has a well-formed timestamp, `should_send` and
`should_send_morning` return a decision without raising, regardless of
malformed rows elsewhere in the log.  When the most recent matching row
itself has a malformed timestamp, the scan raises ValueError (see the
counterexample) rather than skipping it. -/
theorem C3_scan_last_row_only (now : Nat) (level : ℚ) (msg_type : String)
    (tm : Bool) (log : Option (List Row))
    (hmt : msg_type = "container" ∨ msg_type = "litter")
    (hp : ((sentRows msg_type log).getLast?).all (fun r => r.timestamp.isSome) = true)
    (hm : ((sentRows "morning" log).getLast?).all (fun r => r.timestamp.isSome) = true) :
    (∃ b, should_send now level msg_type log = .ok b) ∧
    (∃ b, should_send_morning tm now log = .ok b) := by
  constructor
  · unfold should_send
    by_cases hq : 8 ≤ localHour now ∧ localHour now < 23
    · rw [if_neg (not_not_intro hq), windowChain_known _ _ hmt]
      rcases hcl : classify msg_type level with _ | sev
      · refine ⟨false, ?_⟩
        simp
      · simp only [Option.map_some']
        rcases hL : (sentRows msg_type log).getLast? with _ | r
        · exact ⟨true, rfl⟩
        · rw [hL] at hp
          simp only [Option.all_some] at hp
          obtain ⟨ts, hts⟩ := Option.isSome_iff_exists.mp hp
          simp only [hts]
          by_cases hw : (now : ℤ) - ts < (windowFor sev : ℤ)
          · rw [if_pos hw]
            exact ⟨false, rfl⟩
          · rw [if_neg hw]
            exact ⟨true, rfl⟩
    · rw [if_pos hq]
      exact ⟨false, rfl⟩
  · unfold should_send_morning
    cases tm
    · rw [if_neg Bool.false_ne_true]
      by_cases hq : 8 ≤ localHour now ∧ localHour now < 9
      · rw [if_neg (not_not_intro hq)]
        rcases hL : (sentRows "morning" log).getLast? with _ | r
        · exact ⟨true, rfl⟩
        · rw [hL] at hm
          simp only [Option.all_some] at hm
          obtain ⟨ts, hts⟩ := Option.isSome_iff_exists.mp hm
          simp only [hts]
          by_cases hd : localDate ts = localDate now
          · rw [if_pos hd]
            exact ⟨false, rfl⟩
          · rw [if_neg hd]
            exact ⟨true, rfl⟩
      · rw [if_pos hq]
        exact ⟨false, rfl⟩
    · exact ⟨true, rfl⟩

/-- C3 witness: a log holding a malformed container row followed by a
well-formed one; both deciders return a decision without raising. -/
theorem C3_scan_last_row_only_witness :
    (∃ b, should_send 500 95 "container"
      (some [⟨none, "container", "x", "True"⟩,
             ⟨some 430, "container", "95.0", "True"⟩]) = .ok b) ∧
    (∃ b, should_send_morning false 500
      (some [⟨none, "container", "x", "True"⟩,
             ⟨some 430, "container", "95.0", "True"⟩]) = .ok b) :=
  C3_scan_last_row_only 500 95 "container" false
    (some [⟨none, "container", "x", "True"⟩,
           ⟨some 430, "container", "95.0", "True"⟩])
    (Or.inl rfl) (by decide) (by decide)

/-! ## C10: msg_type outside container/litter -/

/-- C10: for a `msg_type` outside container/litter, at a time inside the
quiet-hours window, `should_send` never assigns the throttle window: it
returns True when no sent=True row of that type exists (in particular when
the log file is absent), and fails with UnboundLocalError on `window` when
such a row (with a well-formed timestamp) exists. -/
theorem C10_unassigned_window (now : Nat) (level : ℚ) (msg_type : String)
    (log : Option (List Row))
    (h1 : msg_type ≠ "container") (h2 : msg_type ≠ "litter")
    (h8 : 8 ≤ localHour now) (h23 : localHour now < 23)
    (hp : ((sentRows msg_type log).getLast?).all (fun r => r.timestamp.isSome) = true) :
    (sentRows msg_type log = [] → should_send now level msg_type log = .ok true) ∧
    (sentRows msg_type log ≠ [] →
      should_send now level msg_type log = .error .unboundLocal) := by
  unfold should_send
  rw [if_neg (not_not_intro ⟨h8, h23⟩), windowChain_other _ _ h1 h2]
  rcases hL : (sentRows msg_type log).getLast? with _ | r
  · exact ⟨fun _ => rfl,
      fun hne => absurd (List.getLast?_eq_none_iff.mp hL) hne⟩
  · rw [hL] at hp
    simp only [Option.all_some] at hp
    obtain ⟨ts, hts⟩ := Option.isSome_iff_exists.mp hp
    simp only [hts]
    refine ⟨fun hnil => ?_, fun _ => by trivial⟩
    rw [hnil] at hL
    simp at hL

/-- C10 witness: msg_type "morning" at 08:20 local with one sent=True
morning row in the log: `should_send` hits the unbound `window` variable. -/
theorem C10_unassigned_window_witness :
    should_send 500 0 "morning" (some [⟨some 100, "morning", "1.0", "True"⟩]) =
      .error .unboundLocal :=
  (C10_unassigned_window 500 0 "morning"
      (some [⟨some 100, "morning", "1.0", "True"⟩])
      (by decide) (by decide) (by decide) (by decide) (by decide)).2 (by decide)

/-! ## C8: morning digest gate -/

/-- C8: with the verification-mode flag set, `should_send_morning` is
unconditionally True; otherwise — for a log whose sent=True morning entries
have well-formed timestamps no later than today, the most recent such entry
carrying the latest date (the chronological-order invariant of the log) —
it is True iff the local hour is in [8, 9) and no sent=True morning entry
is dated today. -/
theorem C8_digest_iff (now : Nat) (log : Option (List Row))
    (hp : ∀ r ∈ sentRows "morning" log,
      ∃ ts, r.timestamp = some ts ∧ localDate ts ≤ localDate now)
    (hmax : ∀ rl, (sentRows "morning" log).getLast? = some rl →
      ∀ tsl, rl.timestamp = some tsl →
        ∀ r ∈ sentRows "morning" log, ∀ ts, r.timestamp = some ts →
          localDate ts ≤ localDate tsl) :
    should_send_morning true now log = .ok true ∧
    (should_send_morning false now log = .ok true ↔
      (8 ≤ localHour now ∧ localHour now < 9) ∧
      ¬ ∃ r ∈ sentRows "morning" log, ∃ ts, r.timestamp = some ts ∧
        localDate ts = localDate now) := by
  refine ⟨rfl, ?_⟩
  unfold should_send_morning
  rw [if_neg Bool.false_ne_true]
  by_cases hq : 8 ≤ localHour now ∧ localHour now < 9
  · rw [if_neg (not_not_intro hq)]
    rcases hL : (sentRows "morning" log).getLast? with _ | rl
    · have hnil := List.getLast?_eq_none_iff.mp hL
      constructor
      · intro _
        refine ⟨hq, ?_⟩
        rintro ⟨r, hr, _⟩
        rw [hnil] at hr
        simp at hr
      · intro _
        rfl
    · have hrl : rl ∈ sentRows "morning" log := List.mem_of_getLast?_eq_some hL
      obtain ⟨tsl, htsl, hle⟩ := hp rl hrl
      simp only [htsl]
      by_cases hdate : localDate tsl = localDate now
      · rw [if_pos hdate]
        simp only [Except.ok.injEq, Bool.false_eq_true, false_iff]
        rintro ⟨_, hno⟩
        exact hno ⟨rl, hrl, tsl, htsl, hdate⟩
      · rw [if_neg hdate]
        constructor
        · intro _
          refine ⟨hq, ?_⟩
          rintro ⟨r, hr, ts, hts, hdt⟩
          have h1 := hmax rl hL tsl htsl r hr ts hts
          exact hdate (le_antisymm hle (hdt ▸ h1))
        · intro _
          rfl
  · rw [if_pos hq]
    simp only [Except.ok.injEq, Bool.false_eq_true, false_iff]
    rintro ⟨hq', _⟩
    exact hq hq'

/-- C8 witness: at 08:20 local on day 1, with one sent=True morning entry
dated day 0, the digest gate is open; under the verification flag it is
open unconditionally. -/
theorem C8_digest_iff_witness :
    should_send_morning true 1940
      (some [⟨some 400, "morning", "1.0", "True"⟩]) = .ok true ∧
    should_send_morning false 1940
      (some [⟨some 400, "morning", "1.0", "True"⟩]) = .ok true := by
  have hs : sentRows "morning" (some [⟨some 400, "morning", "1.0", "True"⟩]) =
      [⟨some 400, "morning", "1.0", "True"⟩] := rfl
  have h := C8_digest_iff 1940 (some [⟨some 400, "morning", "1.0", "True"⟩])
    (by
      intro r hr
      rw [hs] at hr
      rw [List.mem_singleton] at hr
      subst hr
      exact ⟨400, rfl, by decide⟩)
    (by
      intro rl hrl tsl htsl r hr ts hts
      rw [hs] at hr
      rw [List.mem_singleton] at hr
      subst hr
      rw [hs] at hrl
      simp at hrl
      subst hrl
      rw [htsl] at hts
      injection hts with hts
      subst hts
      exact le_refl _)
  refine ⟨h.1, h.2.mpr ⟨⟨by decide, by decide⟩, ?_⟩⟩
  rintro ⟨r, hr, ts, hts, hdt⟩
  rw [hs] at hr
  rw [List.mem_singleton] at hr
  subst hr
  injection hts with hts
  subst hts
  exact absurd hdt (by decide)

/-! ## C4 and C5: retention compaction -/

/-- The retention test of `cleanup_log` on a single (well-formed) row:
`ts >= cutoff` with `cutoff = now - timedelta(hours=48)`. -/
def keepRow (now : Nat) (r : Row) : Bool :=
  match r.timestamp with
  | none => false
  | some ts => decide ((ts : ℤ) ≥ (now : ℤ) - 2880)

lemma keptRows_ok_of_wellformed (now : Nat) (rs : List Row)
    (h : ∀ r ∈ rs, r.timestamp.isSome) :
    keptRows now rs = .ok (rs.filter (keepRow now)) := by
  induction rs with
  | nil => rfl
  | cons r rs ih =>
    obtain ⟨ts, hts⟩ := Option.isSome_iff_exists.mp (h r (List.mem_cons_self r rs))
    have hrs : ∀ x ∈ rs, x.timestamp.isSome := fun x hx => h x (List.mem_cons_of_mem _ hx)
    simp only [keptRows, hts]
    by_cases hge : (ts : ℤ) ≥ (now : ℤ) - 2880
    · have hkr : keepRow now r = true := by
        simp only [keepRow, hts]
        exact decide_eq_true hge
      rw [if_pos hge, ih hrs, List.filter_cons, if_pos hkr]
      rfl
    · have hkr : keepRow now r = false := by
        simp only [keepRow, hts]
        exact decide_eq_false hge
      rw [if_neg hge, ih hrs, List.filter_cons, if_neg (by simp [hkr])]

lemma keptRows_error_of_malformed (now : Nat) (rs : List Row)
    (h : ∃ r ∈ rs, r.timestamp = none) :
    keptRows now rs = .error .valueError := by
  induction rs with
  | nil => simp at h
  | cons r rs ih =>
    obtain ⟨x, hx, hnone⟩ := h
    rcases List.mem_cons.mp hx with rfl | hx
    · simp [keptRows, hnone]
    · rcases hts : r.timestamp with _ | ts
      · simp [keptRows, hts]
      · simp only [keptRows, hts]
        rw [ih ⟨x, hx, hnone⟩]
        split_ifs <;> rfl

/-- C4: on an existing log with canonical header and well-formed
timestamps, `cleanup_log` at time `now` succeeds and produces the canonical
header followed by exactly the original rows whose timestamp is at least
`now` minus 48 hours (2880 minutes), each kept row unchanged; no temporary
file is left behind. -/
theorem C4_cleanup_retention (now : Nat) (f : LogFile)
    (hh : f.header = LOG_FIELDNAMES)
    (hp : ∀ r ∈ f.rows, r.timestamp.isSome) :
    cleanup_log now (some f) true =
      ⟨some ⟨LOG_FIELDNAMES, f.rows.filter (keepRow now)⟩, false, .ok ()⟩ := by
  simp only [cleanup_log]
  rw [keptRows_ok_of_wellformed now f.rows hp]
  simp [hh]

/-- C4 witness: rows at now−72h, now−40h and now−1h (now = 10000 minutes):
compaction retains exactly the last two rows unchanged and removes the
first, under the canonical header. -/
theorem C4_cleanup_retention_witness :
    cleanup_log 10000
      (some ⟨LOG_FIELDNAMES,
        [⟨some 5680, "container", "95.0", "True"⟩,
         ⟨some 7600, "litter", "15.0", "False"⟩,
         ⟨some 9940, "morning", "40.0", "True"⟩]⟩) true =
      ⟨some ⟨LOG_FIELDNAMES,
        [⟨some 7600, "litter", "15.0", "False"⟩,
         ⟨some 9940, "morning", "40.0", "True"⟩]⟩,
        false, .ok ()⟩ :=
  (C4_cleanup_retention 10000
    ⟨LOG_FIELDNAMES,
      [⟨some 5680, "container", "95.0", "True"⟩,
       ⟨some 7600, "litter", "15.0", "False"⟩,
       ⟨some 9940, "morning", "40.0", "True"⟩]⟩
    rfl (by decide)).trans rfl

/-- C5: `cleanup_log` is a no-op when the log file is absent, and on every
failure before the atomic replace succeeds — a malformed row aborting the
rewrite, or `os.replace` itself failing — the original log content is
unchanged, no temporary file remains, and the error propagates to the
caller. -/
theorem C5_cleanup_failure_safe (now : Nat) (f : LogFile) (replaceOk : Bool) :
    cleanup_log now none replaceOk = ⟨none, false, .ok ()⟩ ∧
    (((∃ r ∈ f.rows, r.timestamp = none) ∨ replaceOk = false) →
      ∃ e, cleanup_log now (some f) replaceOk = ⟨some f, false, .error e⟩) := by
  refine ⟨rfl, ?_⟩
  rintro (hbad | hro)
  · refine ⟨.valueError, ?_⟩
    simp only [cleanup_log]
    rw [keptRows_error_of_malformed now f.rows hbad]
  · subst hro
    simp only [cleanup_log]
    rcases hk : keptRows now f.rows with e | kept
    · exact ⟨e, rfl⟩
    · exact ⟨.osError, rfl⟩

/-- C5 witness: a log with one malformed row and a failing replace leave
the original file intact, no temporary file, and an error surfaced; the
absent log is a no-op. -/
theorem C5_cleanup_failure_safe_witness :
    cleanup_log 100 none true = ⟨none, false, .ok ()⟩ ∧
    ∃ e, cleanup_log 100 (some ⟨LOG_FIELDNAMES, [⟨none, "container", "x", "True"⟩]⟩) true =
      ⟨some ⟨LOG_FIELDNAMES, [⟨none, "container", "x", "True"⟩]⟩, false, .error e⟩ :=
  ⟨(C5_cleanup_failure_safe 100 ⟨LOG_FIELDNAMES, []⟩ true).1,
   (C5_cleanup_failure_safe 100 ⟨LOG_FIELDNAMES, [⟨none, "container", "x", "True"⟩]⟩ true).2
     (Or.inl ⟨⟨none, "container", "x", "True"⟩, List.mem_singleton_self _, rfl⟩)⟩

/-! ## C6: written row format -/

/-- C6 counterexample: the canonical header the program writes and checks is
`timestamp,type,level,sent` — the second field name is `type`, not `kind` as
the claim states. -/
theorem C6_counterexample :
    headerLine ≠ "timestamp,kind,level,sent" ∧
    headerLine = "timestamp,type,level,sent" := by
  constructor
  · decide
  · rfl

lemma daysInYear_ge (y : Nat) : 365 ≤ daysInYear y := by
  unfold daysInYear
  split_ifs <;> norm_num

lemma monthLengths_sum (y : Nat) : (monthLengths y).sum = daysInYear y := by
  unfold monthLengths daysInYear
  cases h : isLeap y <;> simp

lemma monthLengths_le (y : Nat) : ∀ L ∈ monthLengths y, L ≤ 31 := by
  unfold monthLengths
  cases h : isLeap y <;> intro L hL <;> simp at hL <;> rcases hL with h | h <;> omega

lemma monthLengths_length (y : Nat) : (monthLengths y).length = 12 := by
  unfold monthLengths
  simp

lemma monthDayAux_bounds (lens : List Nat) :
    ∀ (m d : Nat), (∀ L ∈ lens, L ≤ 31) → d < lens.sum →
    m ≤ (monthDayAux m lens d).1 ∧ (monthDayAux m lens d).1 + 1 ≤ m + lens.length ∧
    1 ≤ (monthDayAux m lens d).2 ∧ (monthDayAux m lens d).2 ≤ 31 := by
  induction lens with
  | nil =>
    intro m d _ hd
    simp at hd
  | cons L rest ih =>
    intro m d hlen hd
    rw [List.sum_cons] at hd
    simp only [monthDayAux]
    split_ifs with h
    · have hL : L ≤ 31 := hlen L (List.mem_cons_self L rest)
      simp only [List.length_cons]
      omega
    · have hlen2 : ∀ x ∈ rest, x ≤ 31 := fun x hx => hlen x (List.mem_cons_of_mem _ hx)
      have hd2 : d - L < rest.sum := by omega
      have := ih (m + 1) (d - L) hlen2 hd2
      simp only [List.length_cons]
      omega

lemma yearDayAux_bounds : ∀ (fuel y d : Nat), d ≤ fuel →
    (yearDayAux fuel y d).2 < daysInYear (yearDayAux fuel y d).1 := by
  intro fuel
  induction fuel with
  | zero =>
    intro y d hd
    have hz : d = 0 := Nat.le_zero.mp hd
    subst hz
    simp only [yearDayAux]
    have := daysInYear_ge y
    omega
  | succ n ih =>
    intro y d hd
    simp only [yearDayAux]
    split_ifs with h
    · exact h
    · exact ih (y + 1) (d - daysInYear y) (by have := daysInYear_ge y; omega)

lemma civilFromMinutes_bounds (t : Nat) :
    1 ≤ (civilFromMinutes t).2.1 ∧ (civilFromMinutes t).2.1 ≤ 12 ∧
    1 ≤ (civilFromMinutes t).2.2 ∧ (civilFromMinutes t).2.2 ≤ 31 := by
  unfold civilFromMinutes
  have hyd := yearDayAux_bounds (t / 1440) 1970 (t / 1440) (le_refl _)
  have hsum := monthLengths_sum (yearDayAux (t / 1440) 1970 (t / 1440)).1
  have hlen := monthLengths_le (yearDayAux (t / 1440) 1970 (t / 1440)).1
  have hlength := monthLengths_length (yearDayAux (t / 1440) 1970 (t / 1440)).1
  have hm := monthDayAux_bounds (monthLengths (yearDayAux (t / 1440) 1970 (t / 1440)).1)
    1 (yearDayAux (t / 1440) 1970 (t / 1440)).2 hlen (by rw [hsum]; exact hyd)
  simp only at hm ⊢
  omega

lemma pad2_length (n : Nat) (h : n < 100) : (pad2 n).length = 2 := by
  unfold pad2
  split_ifs with h10
  · have h1 : (toString n).length = 1 := by interval_cases n <;> rfl
    rw [String.length_append, h1]
    rfl
  · have h2 : (toString n).length = 2 := by interval_cases n <;> rfl
    exact h2

/-- C6 (amended): every row the program writes conforms to the documented
format, except that the second field is named `type`, not `kind`: the
header row is exactly `timestamp,type,level,sent` in that fixed order, and
each data row written by `log_reading` has an ISO-8601 timestamp with UTC
offset (`YYYY-MM-DDTHH:MM:SS-06:00`, with calendar-valid two-digit month,
day, hour and minute fields), a type from container|litter|morning (the
only values `main()` passes), the level formatted with one decimal place,
and sent as the literal token True or False. -/
theorem C6_row_format (now : Nat) (msg_type : String) (tenths : Nat)
    (sent : Bool) (hmt : msg_type ∈ mainMsgTypes) :
    headerLine = "timestamp,type,level,sent" ∧
    logRowFields now msg_type tenths sent =
      [isoTimestamp now, msg_type, formatLevel tenths, formatSent sent] ∧
    (msg_type = "container" ∨ msg_type = "litter" ∨ msg_type = "morning") ∧
    (∃ y m d,
      isoTimestamp now =
        pad4 y ++ "-" ++ pad2 m ++ "-" ++ pad2 d ++ "T" ++
          pad2 (now % 1440 / 60) ++ ":" ++ pad2 (now % 60) ++ ":00-06:00" ∧
      1 ≤ m ∧ m ≤ 12 ∧ 1 ≤ d ∧ d ≤ 31 ∧
      now % 1440 / 60 < 24 ∧ now % 60 < 60 ∧
      (pad2 m).length = 2 ∧ (pad2 d).length = 2 ∧
      (pad2 (now % 1440 / 60)).length = 2 ∧ (pad2 (now % 60)).length = 2) ∧
    (formatSent sent = "True" ∨ formatSent sent = "False") ∧
    formatLevel tenths = toString (tenths / 10) ++ "." ++ toString (tenths % 10) ∧
    (toString (tenths % 10)).length = 1 := by
  refine ⟨rfl, rfl, ?_, ?_, ?_, rfl, ?_⟩
  · simp only [mainMsgTypes, List.mem_cons, List.not_mem_nil, or_false] at hmt
    exact hmt
  · obtain ⟨hm1, hm12, hd1, hd31⟩ := civilFromMinutes_bounds now
    have hhour : now % 1440 / 60 < 24 := by omega
    have hmin : now % 60 < 60 := Nat.mod_lt _ (by norm_num)
    exact ⟨(civilFromMinutes now).1, (civilFromMinutes now).2.1, (civilFromMinutes now).2.2,
      rfl, hm1, hm12, hd1, hd31, hhour, hmin,
      pad2_length _ (by omega), pad2_length _ (by omega),
      pad2_length _ (by omega), pad2_length _ (by omega)⟩
  · cases sent
    · exact Or.inr rfl
    · exact Or.inl rfl
  · have h : tenths % 10 < 10 := Nat.mod_lt _ (by decide)
    set m := tenths % 10 with hm
    interval_cases m <;> rfl

/-- C6 witness: a litter row at 08:20 on the epoch day, level 95.1, sent:
the full row evaluates to concrete strings in the documented format, the
timestamp rendering as 1970-01-01T08:20:00-06:00. -/
theorem C6_row_format_witness :
    logRowFields 500 "litter" 951 true =
      ["1970-01-01T08:20:00-06:00", "litter", "95.1", "True"] ∧
    ("litter" = "container" ∨ "litter" = "litter" ∨ "litter" = "morning") :=
  ⟨((C6_row_format 500 "litter" 951 true
      (List.Mem.tail _ (List.Mem.head _))).2.1).trans rfl,
   (C6_row_format 500 "litter" 951 true
      (List.Mem.tail _ (List.Mem.head _))).2.2.1⟩

/-! ## C7: header repair -/

lemma takeWhile_append_newline (xs cs : List Char) (h : '\n' ∉ xs) :
    (xs ++ '\n' :: cs).takeWhile (· ≠ '\n') = xs := by
  induction xs with
  | nil => simp [List.takeWhile_cons]
  | cons a l ih =>
    simp only [List.mem_cons, not_or] at h
    rw [List.cons_append, List.takeWhile_cons,
      if_pos (decide_eq_true (Ne.symm h.1)), ih h.2]

lemma newline_not_mem_header : '\n' ∉ headerChars := by decide

lemma pyStrip_header : pyStrip headerChars = headerChars := by rfl

lemma firstLineStripped_prepend (cs : List Char) :
    firstLineStripped (headerChars ++ '\n' :: cs) = headerChars := by
  unfold firstLineStripped
  rw [takeWhile_append_newline _ _ newline_not_mem_header]
  exact pyStrip_header

/-- C7 counterexample: a file whose first line is a single leading space
followed by the canonical header.  Its first line is not the canonical
header, so the claim demands that the header be prepended; but
`_ensure_log_header` compares the *stripped* first line and leaves the file
unchanged. -/
theorem C7_counterexample :
    (' ' :: headerChars).takeWhile (· ≠ '\n') ≠ headerChars ∧
    ensure_log_header (some (' ' :: headerChars)) = some (' ' :: headerChars) := by
  constructor
  · decide
  · rfl

/-- C7 (amended): `_ensure_log_header` is a no-op on a missing file and on a
file whose stripped first line equals the canonical header; when the
stripped first line differs, it prepends exactly the canonical header line,
leaving the original content byte-for-byte unchanged after it; and it is
idempotent. -/
theorem C7_ensure_header :
    ensure_log_header none = none ∧
    (∀ cs, firstLineStripped cs = headerChars →
      ensure_log_header (some cs) = some cs) ∧
    (∀ cs, firstLineStripped cs ≠ headerChars →
      ensure_log_header (some cs) = some (headerChars ++ '\n' :: cs)) ∧
    (∀ f, ensure_log_header (ensure_log_header f) = ensure_log_header f) := by
  have hsome : ∀ cs, ensure_log_header (some cs) =
      if firstLineStripped cs = headerChars then some cs
      else some (headerChars ++ '\n' :: cs) := fun cs => rfl
  refine ⟨rfl, ?_, ?_, ?_⟩
  · intro cs h
    rw [hsome, if_pos h]
  · intro cs h
    rw [hsome, if_neg h]
  · intro f
    rcases f with _ | cs
    · rfl
    · by_cases h : firstLineStripped cs = headerChars
      · rw [hsome, if_pos h, hsome, if_pos h]
      · rw [hsome, if_neg h, hsome, if_pos (firstLineStripped_prepend cs)]

/-- C7 witness: a headerless one-row file gets exactly the canonical header
line prepended, with the original content unchanged after it; repairing the
repaired file changes nothing. -/
theorem C7_ensure_header_witness :
    ensure_log_header (some ("2020,container,1.0,True".toList)) =
      some (headerChars ++ '\n' :: "2020,container,1.0,True".toList) ∧
    ensure_log_header (ensure_log_header (some ("2020,container,1.0,True".toList))) =
      ensure_log_header (some ("2020,container,1.0,True".toList)) :=
  ⟨C7_ensure_header.2.2.1 _ (by decide),
   C7_ensure_header.2.2.2 _⟩
